import Mathlib

/-!
Verification development for the middle-end of the Leo compiler
(type checker, flattener, import resolver, definer, expression parser).
Each Rust function referenced by a claim is shallowly embedded as an
executable Lean definition, and the claims are settled as theorems about
those definitions.
-/

set_option maxRecDepth 4000

deriving instance DecidableEq for Except

namespace LeoStr

/-- Decimal digit character for a digit value below ten, mirroring the
decimal rendering performed by the Rust `format!` macro. -/
def digitChar (d : Nat) : Char := Char.ofNat (48 + d)

/-- Most-significant-first decimal digit list of a natural number,
mirroring the decimal rendering performed by the Rust `format!` macro. -/
def natDigits (n : Nat) : List Char :=
  if _h : n < 10 then [digitChar n]
  else natDigits (n / 10) ++ [digitChar (n % 10)]
termination_by n
decreasing_by
  exact Nat.div_lt_self (by omega) (by omega)

/-- Decimal string of a natural number, the Lean counterpart of the decimal
output of Rust `format!("{i}")` for a `usize` value. -/
def natRepr (n : Nat) : String := String.mk (natDigits n)

/-- Value of a digit list, used to invert `natDigits`. -/
def digitsVal (l : List Char) : Nat :=
  l.foldl (fun a c => 10 * a + (c.toNat - 48)) 0

end LeoStr

namespace LeoDefiner

/-- The inner data of the `Definer` pass helper: a strictly increasing
counter used to ensure that new variable names are unique.
Embeds `DefinerInner` from `src/compiler/passes/src/common/definer/mod.rs`. -/
structure DefinerInner where
  counter : Nat
  deriving DecidableEq

/-- Embeds `DefinerInner::unique_symbol`: the counter is incremented by one
and the returned symbol is `format!("{}{}{}", arg, separator, self.counter - 1)`
computed after the increment, i.e. the pre-increment counter value.
`Definer::unique_symbol` delegates to this through a `RefCell`; symbols are
modelled as the interned strings. -/
def DefinerInner.uniqueSymbol (d : DefinerInner) (arg separator : String) :
    DefinerInner × String :=
  let counter' := d.counter + 1
  (⟨counter'⟩, arg ++ separator ++ LeoStr.natRepr (counter' - 1))

end LeoDefiner

namespace LeoResolve

/-- Source span, as carried through the import-resolver interface. -/
structure RSpan where
  lo : Nat
  hi : Nat
  deriving DecidableEq

/-- Object-language types needed for the synthesized blake2s circuit. -/
inductive AstType
| u8
| array (elem : AstType) (size : Nat)
  deriving DecidableEq

/-- A circuit (record) member function signature. -/
structure FunctionSig where
  name : String
  params : List (String × AstType)
  returnType : AstType
  deriving DecidableEq

/-- A circuit member: this fragment only needs function members. -/
inductive CircuitMember
| fn (sig : FunctionSig)
  deriving DecidableEq

/-- A circuit (record) declaration. -/
structure CircuitDecl where
  name : String
  members : List CircuitMember
  deriving DecidableEq

/-- A parsed program, as returned through the import-resolver interface.
`coreMapping` records the tag set by `set_core_mapping`. -/
structure Program where
  circuits : List (String × CircuitDecl)
  coreMapping : Option String
  deriving DecidableEq

/-- Unrecoverable resolver errors (the `Err` side of `leo_errors::Result`). -/
inductive LeoError
| err
  deriving DecidableEq

/-- Modelled from the spec: `load_ast` applied to the embedded source text
of the blake2s circuit, followed by `set_core_mapping("blake2s")`; the
parser itself is outside the sources, so the resulting program is taken
from the circuit text in `resolve_core_module` (a single circuit `Blake2s`
whose sole member is `function hash(seed: [u8; 32], message: [u8; 32]) -> [u8; 32]`)
with the core mapping set to `"blake2s"`. -/
def blake2sProgram : Program :=
  { circuits :=
      [("Blake2s",
        { name := "Blake2s",
          members :=
            [CircuitMember.fn
              { name := "hash",
                params :=
                  [("seed", AstType.array AstType.u8 32),
                   ("message", AstType.array AstType.u8 32)],
                returnType := AstType.array AstType.u8 32 }] })],
    coreMapping := some "blake2s" }

/-- Embeds `resolve_core_module` from
`src/ast-passes/src/import_resolution/resolver.rs`: the dotted module path
is matched against the fixed registry; `"unstable.blake2s"` yields the
synthesized blake2s program and every other path yields `Ok(None)`. -/
def resolveCoreModule (module : String) : Except LeoError (Option Program) :=
  if module = "unstable.blake2s" then Except.ok (some blake2sProgram)
  else Except.ok none

/-- An import resolver, as a function: the `ImportResolver` trait method
`resolve_package(package_segments, span)`. -/
def ImportResolver : Type :=
  List String → RSpan → Except LeoError (Option Program)

/-- Embeds `NullImportResolver::resolve_package`: always `Ok(None)`. -/
def nullImportResolver : ImportResolver := fun _ _ => Except.ok none

/-- Embeds `CoreImportResolver::resolve_package`: if the segment list is
non-empty and its first segment is `"core"`, the remaining segments are
joined with `"."` and resolved by `resolve_core_module`; otherwise the call
is delegated to the inner resolver. -/
def coreResolvePackage (inner : ImportResolver) : ImportResolver :=
  fun segments span =>
    match segments with
    | [] => inner [] span
    | s :: rest =>
      if s = "core" then resolveCoreModule (String.intercalate "." rest)
      else inner (s :: rest) span

end LeoResolve

namespace LeoTC

/-- Fixed-width integer types of the object language
(`leo_ast::IntegerType`). -/
inductive IntegerType
| i8 | i16 | i32 | i64 | i128
| u8 | u16 | u32 | u64 | u128
  deriving DecidableEq

/-- Whether an integer type is signed. -/
def IntegerType.isSigned : IntegerType → Bool
| .i8 | .i16 | .i32 | .i64 | .i128 => true
| .u8 | .u16 | .u32 | .u64 | .u128 => false

/-- Bit width of an integer type. -/
def IntegerType.bits : IntegerType → Nat
| .i8 => 8 | .i16 => 16 | .i32 => 32 | .i64 => 64 | .i128 => 128
| .u8 => 8 | .u16 => 16 | .u32 => 32 | .u64 => 64 | .u128 => 128

/-- Object-language types (`leo_ast::Type`), restricted to the fragment the
type-checker claims exercise; record types are compared nominally by name. -/
inductive Ty
| address
| boolean
| field
| group
| scalar
| string
| integerType (t : IntegerType)
| identifier (name : String)
  deriving DecidableEq

/-- Compile-time constant values (`Value`) for the embedded literal forms.
Signed values carry their mathematical integer, unsigned their natural. -/
inductive Value
| boolean (b : Bool)
| field (n : Nat)
| group (n : Nat)
| scalar (n : Nat)
| i8 (v : Int) | i16 (v : Int) | i32 (v : Int) | i64 (v : Int) | i128 (v : Int)
| u8 (v : Nat) | u16 (v : Nat) | u32 (v : Nat) | u64 (v : Nat) | u128 (v : Nat)
  deriving DecidableEq

/-- The type of a constant value. -/
def Value.typeOf : Value → Ty
| .boolean _ => .boolean
| .field _ => .field
| .group _ => .group
| .scalar _ => .scalar
| .i8 _ => .integerType .i8
| .i16 _ => .integerType .i16
| .i32 _ => .integerType .i32
| .i64 _ => .integerType .i64
| .i128 _ => .integerType .i128
| .u8 _ => .integerType .u8
| .u16 _ => .integerType .u16
| .u32 _ => .integerType .u32
| .u64 _ => .integerType .u64
| .u128 _ => .integerType .u128

/-- Modelled from the spec: the checker annotation (`TypeOutput`, whose
defining module is not among the sources): either no information, an
inferred type with a mutability marker (`MutType`/`LitType`), or a folded
constant value. -/
inductive TypeOutput
| none
| mutType (t : Ty)
| litType (t : Ty)
| constVal (v : Value)
  deriving DecidableEq

/-- The inferred type carried by a `TypeOutput`
(the `Option<Type>` view used via `.as_ref().into()`). -/
def TypeOutput.typeOf : TypeOutput → Option Ty
| .none => Option.none
| .mutType t => some t
| .litType t => some t
| .constVal v => some v.typeOf

/-- The folded constant carried by a `TypeOutput`
(the `Option<Value>` view). -/
def TypeOutput.valueOf : TypeOutput → Option Value
| .constVal v => some v
| _ => Option.none

/-- Modelled from the spec: `TypeOutput::replace`, which forces the output
to carry the given type (used e.g. to force a `Boolean` result); a carried
constant is dropped since the replacing type classifies the whole node. -/
def TypeOutput.replace : TypeOutput → Ty → TypeOutput
| .none, t => .mutType t
| .mutType _, t => .mutType t
| .litType _, t => .litType t
| .constVal _, t => .mutType t

/-- Diagnostics emitted by the type checker (`TypeCheckerError` kinds used
in the embedded fragment). `typeShouldBe` with `none` as the actual type
models the `type_should_be("no type", ...)` emission of `assert_eq_types`. -/
inductive TCError
| typeShouldBe (actual : Option Ty) (expected : Ty)
| expectedOneTypeOf (expected : List Ty) (actual : Ty)
| invalidIntValue (value : Int) (suffix : IntegerType)
| typeIsNotNegatable (t : Ty)
  deriving DecidableEq

/-- Embeds the constant `INT_TYPES` of `type_checker/checker.rs`. -/
def INT_TYPES : List Ty :=
  [.integerType .i8, .integerType .i16, .integerType .i32, .integerType .i64,
   .integerType .i128, .integerType .u8, .integerType .u16, .integerType .u32,
   .integerType .u64, .integerType .u128]

/-- Embeds `SIGNED_INT_TYPES` of `checker.rs`. -/
def SIGNED_INT_TYPES : List Ty :=
  [.integerType .i8, .integerType .i16, .integerType .i32, .integerType .i64,
   .integerType .i128]

/-- Embeds `MAGNITUDE_TYPES` of `checker.rs`. -/
def MAGNITUDE_TYPES : List Ty :=
  [.integerType .u8, .integerType .u16, .integerType .u32]

/-- Embeds `BOOL_INT_TYPES` of `checker.rs`. -/
def BOOL_INT_TYPES : List Ty := INT_TYPES ++ [.boolean]

/-- Embeds `FIELD_INT_TYPES` of `checker.rs`. -/
def FIELD_INT_TYPES : List Ty := INT_TYPES ++ [.field]

/-- Embeds `FIELD_GROUP_INT_TYPES` of `checker.rs`. -/
def FIELD_GROUP_INT_TYPES : List Ty := FIELD_INT_TYPES ++ [.group]

/-- Embeds `FIELD_GROUP_SCALAR_INT_TYPES` of `checker.rs`. -/
def FIELD_GROUP_SCALAR_INT_TYPES : List Ty := FIELD_GROUP_INT_TYPES ++ [.scalar]

/-- Embeds `FIELD_GROUP_TYPES` of `checker.rs`. -/
def FIELD_GROUP_TYPES : List Ty := [.field, .group]

/-- Embeds `FIELD_SCALAR_TYPES` of `checker.rs`. -/
def FIELD_SCALAR_TYPES : List Ty := [.field, .scalar]

/-- The address/field/scalar/integer class checked by the relational
operators (`assert_address_field_scalar_int_type`). -/
def ADDRESS_FIELD_SCALAR_INT_TYPES : List Ty := INT_TYPES ++ [.address, .field, .scalar]

/-- Embeds `assert_one_of_types`: emits `expected_one_type_of` when the
given type is known and not among the expected ones; an unknown type is
accepted silently. -/
def assertOneOfTypes (t : Option Ty) (expected : List Ty) : List TCError :=
  match t with
  | some ty => if ty ∈ expected then [] else [.expectedOneTypeOf expected ty]
  | none => []

/-- Embeds `assert_expected_option` (the `TypeOutput`-threading variant used
by `check_expressions.rs`): checks the actual type against the optional
expected type, emitting `type_should_be` on mismatch, and passes the given
output through. -/
def assertExpectedOption (actual : Ty) (output : TypeOutput)
    (expected : Option Ty) : TypeOutput × List TCError :=
  match expected with
  | some e => if actual = e then (output, []) else (output, [.typeShouldBe (some actual) e])
  | none => (output, [])

/-- Embeds `assert_expected_type` (the `TypeOutput`-threading variant):
emits `type_should_be` when the actual type is known and differs from the
required type, and returns the output forced to the required type. -/
def assertExpectedType (actual : Option Ty) (output : TypeOutput)
    (expected : Ty) : TypeOutput × List TCError :=
  match actual with
  | some a =>
    if a = expected then (output.replace expected, [])
    else (output.replace expected, [.typeShouldBe (some a) expected])
  | none => (output.replace expected, [])

/-- Embeds `assert_eq_types`: two known unequal types, or a known and an
unknown type, emit `type_should_be`. -/
def assertEqTypes (t1 t2 : Option Ty) : List TCError :=
  match t1, t2 with
  | some a, some b => if a = b then [] else [.typeShouldBe (some a) b]
  | some a, none => [.typeShouldBe none a]
  | none, some b => [.typeShouldBe none b]
  | none, none => []

/-- Modelled from the spec: `TypeOutput::return_incorrect_type`, the
unification of two operand outputs under an optional expected type
(matching the `Option<Type>` version of the checker: equal types keep the
left output; unequal known types prefer the one matching the expected
type; a single known side wins). -/
def returnIncorrectType (t1 t2 : TypeOutput) (expected : Option Ty) : TypeOutput :=
  match t1.typeOf, t2.typeOf with
  | some a, some b =>
    if a = b then t1
    else
      match expected with
      | some e => if a ≠ e then t2 else t1
      | none => t1
  | none, some _ => t2
  | some _, none => t1
  | none, none => t1

/-- Literal expressions (`LiteralExpression`) of the embedded fragment.
The textual payload of numeric literals is the natural number denoted by
the lexer's digit string. -/
inductive LiteralExpression
| boolean (b : Bool)
| field (n : Nat)
| group (n : Nat)
| scalar (n : Nat)
| integer (t : IntegerType) (payload : Nat)
  deriving DecidableEq

/-- Unary operators (`UnaryOperation`). -/
inductive UnaryOperation
| abs | absWrapped | double | inverse | negate | notOp | square | squareRoot
  deriving DecidableEq

/-- Binary operators (`BinaryOperation`). -/
inductive BinaryOperation
| and | or | nand | nor
| bitwiseAnd | bitwiseOr | xor
| add | sub | mul | div | pow
| eq | neq | lt | gt | lte | gte
| addWrapped | subWrapped | divWrapped | mulWrapped
| shl | shlWrapped | shr | shrWrapped | powWrapped
  deriving DecidableEq

/-- Expressions of the embedded type-checker fragment: literals, unary,
binary and ternary expressions (identifier, call, access and circuit-init
forms require the symbol table and are outside this fragment). -/
inductive TCExpr
| literal (l : LiteralExpression)
| unary (op : UnaryOperation) (receiver : TCExpr)
| binary (op : BinaryOperation) (left right : TCExpr)
| ternary (condition ifTrue ifFalse : TCExpr)
  deriving DecidableEq

/-- Rust `<iN>::from_str` applied to the digit payload, optionally prefixed
with a minus sign (the `format!("-{str_content}")` of `visit_literal`):
succeeds iff the resulting integer is within the two's-complement range of
the width. -/
def parseSignedPayload (bits : Nat) (negate : Bool) (payload : Nat) : Option Int :=
  if negate then
    if payload ≤ 2 ^ (bits - 1) then some (-(payload : Int)) else none
  else
    if payload < 2 ^ (bits - 1) then some (payload : Int) else none

/-- Rust `<uN>::from_str` applied to the digit payload: succeeds iff the
value fits the width. -/
def parseUnsignedPayload (bits : Nat) (payload : Nat) : Option Nat :=
  if payload < 2 ^ bits then some payload else none

/-- Builds the signed constant of the given integer type. -/
def mkSigned (t : IntegerType) (v : Int) : Value :=
  match t with
  | .i8 => .i8 v | .i16 => .i16 v | .i32 => .i32 v | .i64 => .i64 v | .i128 => .i128 v
  | .u8 => .u8 0 | .u16 => .u16 0 | .u32 => .u32 0 | .u64 => .u64 0 | .u128 => .u128 0

/-- Builds the unsigned constant of the given integer type. -/
def mkUnsigned (t : IntegerType) (v : Nat) : Value :=
  match t with
  | .u8 => .u8 v | .u16 => .u16 v | .u32 => .u32 v | .u64 => .u64 v | .u128 => .u128 v
  | .i8 => .i8 0 | .i16 => .i16 0 | .i32 => .i32 0 | .i64 => .i64 0 | .i128 => .i128 0

/-- Embeds `visit_literal` of `type_checker/check_expressions.rs` on the
embedded literal forms. For an integer literal the expected type is checked
first (`ret_type`); then a signed payload is parsed with a minus sign
prepended exactly when the `negate` state is set, while an unsigned payload
is parsed from the digit payload alone — the ten per-width source arms are
factored by signedness. Failure to parse emits `invalid_int_value` and
returns `ret_type`. -/
def visitLiteral (negate : Bool) (l : LiteralExpression) (expected : Option Ty) :
    TypeOutput × List TCError :=
  match l with
  | .boolean b => assertExpectedOption .boolean (.constVal (.boolean b)) expected
  | .field n => assertExpectedOption .field (.constVal (.field n)) expected
  | .group n => assertExpectedOption .group (.constVal (.group n)) expected
  | .scalar n => assertExpectedOption .scalar (.constVal (.scalar n)) expected
  | .integer t payload =>
    let r := assertExpectedOption (.integerType t) .none expected
    if t.isSigned then
      match parseSignedPayload t.bits negate payload with
      | some v => (.constVal (mkSigned t v), r.2)
      | none =>
        (r.1, r.2 ++ [.invalidIntValue (if negate then -(payload : Int) else (payload : Int)) t])
    else
      match parseUnsignedPayload t.bits payload with
      | some v => (.constVal (mkUnsigned t v), r.2)
      | none => (r.1, r.2 ++ [.invalidIntValue (payload : Int) t])

/-- The negatability check of `visit_unary` for `UnaryOperation::Negate`:
a known type that is neither a signed integer type nor `field` nor `group`
emits `type_is_not_negatable`. -/
def negateCheck (o : TypeOutput) : List TCError :=
  match o.typeOf with
  | some (.integerType .i8) | some (.integerType .i16) | some (.integerType .i32)
  | some (.integerType .i64) | some (.integerType .i128)
  | some .field | some .group => []
  | some t => [.typeIsNotNegatable t]
  | none => []

/-- Embeds `visit_expression` of `check_expressions.rs` on the embedded
fragment, with the `visit_unary` and `visit_binary` dispatch inlined as
match arms, threading the single-bit `negate` state as a parameter (the
source saves the prior state, toggles, visits and restores; restoring a
saved flag is exactly parameter passing). Each unary operator first checks
the expected type against its class, then visits the receiver; `Negate`
toggles the `negate` state for the receiver's visit and then applies the
negatability check. Binary operators dispatch by operator class exactly as
in `check_expressions.rs`, including the mixed `group * scalar` rule of
`Mul` and the field/magnitude dispatch of `Pow`. -/
def visitExpr (negate : Bool) (e : TCExpr) (expected : Option Ty) :
    TypeOutput × List TCError :=
  match e with
  | .literal l => visitLiteral negate l expected
  | .unary op r =>
    match op with
    | .abs =>
      let e0 := assertOneOfTypes expected SIGNED_INT_TYPES
      let rr := visitExpr negate r expected
      (rr.1, e0 ++ rr.2)
    | .absWrapped =>
      let e0 := assertOneOfTypes expected SIGNED_INT_TYPES
      let rr := visitExpr negate r expected
      (rr.1, e0 ++ rr.2)
    | .double =>
      let e0 := assertOneOfTypes expected FIELD_GROUP_TYPES
      let rr := visitExpr negate r expected
      (rr.1, e0 ++ rr.2)
    | .inverse =>
      let c := assertExpectedType expected .none .field
      let rr := visitExpr negate r expected
      (rr.1, c.2 ++ rr.2)
    | .negate =>
      let rr := visitExpr (!negate) r expected
      (rr.1, rr.2 ++ negateCheck rr.1)
    | .notOp =>
      let e0 := assertOneOfTypes expected BOOL_INT_TYPES
      let rr := visitExpr negate r expected
      (rr.1, e0 ++ rr.2)
    | .square =>
      let c := assertExpectedType expected .none .field
      let rr := visitExpr negate r expected
      (rr.1, c.2 ++ rr.2)
    | .squareRoot =>
      let e0 := assertOneOfTypes expected FIELD_SCALAR_TYPES
      let rr := visitExpr negate r expected
      (rr.1, e0 ++ rr.2)
  | .binary op l r =>
    match op with
    | .and | .or | .nand | .nor =>
      let c := assertExpectedOption .boolean .none expected
      let r1 := visitExpr negate l expected
      let r2 := visitExpr negate r expected
      (returnIncorrectType r1.1 r2.1 expected, c.2 ++ r1.2 ++ r2.2)
    | .bitwiseAnd | .bitwiseOr | .xor =>
      let e0 := assertOneOfTypes expected BOOL_INT_TYPES
      let r1 := visitExpr negate l expected
      let r2 := visitExpr negate r expected
      (returnIncorrectType r1.1 r2.1 expected, e0 ++ r1.2 ++ r2.2)
    | .add =>
      let e0 := assertOneOfTypes expected FIELD_GROUP_SCALAR_INT_TYPES
      let r1 := visitExpr negate l expected
      let r2 := visitExpr negate r expected
      (returnIncorrectType r1.1 r2.1 expected, e0 ++ r1.2 ++ r2.2)
    | .sub =>
      let e0 := assertOneOfTypes expected FIELD_GROUP_INT_TYPES
      let r1 := visitExpr negate l expected
      let r2 := visitExpr negate r expected
      (returnIncorrectType r1.1 r2.1 expected, e0 ++ r1.2 ++ r2.2)
    | .mul =>
      let e0 := assertOneOfTypes expected FIELD_GROUP_INT_TYPES
      let r1 := visitExpr negate l none
      let r2 := visitExpr negate r none
      let combined := returnIncorrectType r1.1 r2.1 expected
      match r1.1.typeOf, r2.1.typeOf with
      | some .group, other =>
        let cA := assertExpectedType other .none .scalar
        let cB := assertExpectedType expected combined .group
        (cB.1, e0 ++ r1.2 ++ r2.2 ++ cA.2 ++ cB.2)
      | other, some .group =>
        let cA := assertExpectedType other .none .scalar
        let cB := assertExpectedType expected combined .group
        (cB.1, e0 ++ r1.2 ++ r2.2 ++ cA.2 ++ cB.2)
      | _, _ =>
        let e3 := assertOneOfTypes expected FIELD_INT_TYPES
        (combined, e0 ++ r1.2 ++ r2.2 ++ e3)
    | .div =>
      let e0 := assertOneOfTypes expected FIELD_INT_TYPES
      let r1 := visitExpr negate l expected
      let r2 := visitExpr negate r expected
      (returnIncorrectType r1.1 r2.1 expected, e0 ++ r1.2 ++ r2.2)
    | .pow =>
      let r1 := visitExpr negate l none
      let r2 := visitExpr negate r none
      let combined := returnIncorrectType r1.1 r2.1 expected
      match r1.1.typeOf, r2.1.typeOf with
      | some .field, t2ty =>
        let cA := assertExpectedType t2ty .none .field
        let cB := assertExpectedType expected combined .field
        (cB.1, r1.2 ++ r2.2 ++ cA.2 ++ cB.2)
      | t1ty, some .field =>
        let cA := assertExpectedType t1ty .none .field
        let cB := assertExpectedType expected combined .field
        (cB.1, r1.2 ++ r2.2 ++ cA.2 ++ cB.2)
      | some t1ty, t2ty =>
        let eA := assertOneOfTypes t2ty MAGNITUDE_TYPES
        let cB := assertExpectedType expected combined t1ty
        (cB.1, r1.2 ++ r2.2 ++ eA ++ cB.2)
      | none, t2ty =>
        let eA := assertOneOfTypes t2ty MAGNITUDE_TYPES
        (r2.1, r1.2 ++ r2.2 ++ eA)
    | .eq | .neq =>
      let r1 := visitExpr negate l none
      let r2 := visitExpr negate r none
      let eA := assertEqTypes r1.1.typeOf r2.1.typeOf
      ((returnIncorrectType r1.1 r2.1 none).replace .boolean, r1.2 ++ r2.2 ++ eA)
    | .lt | .gt | .lte | .gte =>
      let r1 := visitExpr negate l none
      let eA := assertOneOfTypes r1.1.typeOf ADDRESS_FIELD_SCALAR_INT_TYPES
      let r2 := visitExpr negate r none
      let eB := assertOneOfTypes r2.1.typeOf ADDRESS_FIELD_SCALAR_INT_TYPES
      let eC := assertEqTypes r1.1.typeOf r2.1.typeOf
      ((returnIncorrectType r1.1 r2.1 none).replace .boolean,
        r1.2 ++ eA ++ r2.2 ++ eB ++ eC)
    | .addWrapped | .subWrapped | .divWrapped | .mulWrapped =>
      let e0 := assertOneOfTypes expected INT_TYPES
      let r1 := visitExpr negate l expected
      let r2 := visitExpr negate r expected
      (returnIncorrectType r1.1 r2.1 expected, e0 ++ r1.2 ++ r2.2)
    | .shl | .shlWrapped | .shr | .shrWrapped | .powWrapped =>
      let e0 := assertOneOfTypes expected INT_TYPES
      let r1 := visitExpr negate l expected
      let r2 := visitExpr negate r none
      let eA := assertOneOfTypes r2.1.typeOf MAGNITUDE_TYPES
      (r1.1, e0 ++ r1.2 ++ r2.2 ++ eA)
  | .ternary c t f =>
    let rc := visitExpr negate c (some .boolean)
    let r1 := visitExpr negate t expected
    let r2 := visitExpr negate f expected
    (returnIncorrectType r1.1 r2.1 none, rc.2 ++ r1.2 ++ r2.2)

end LeoTC

namespace LeoFlat

/-- Variable symbols of the flattener fragment (interned strings). -/
abbrev Symbol := String

/-- Unary operators occurring in the flattener fragment
(`UnaryOperation::Not` is used to negate a conditional's guard). -/
inductive FUnaryOp
| notOp
  deriving DecidableEq

/-- Binary operators occurring in the flattener fragment
(`BinaryOperation::And` is used to fold the condition stack). -/
inductive FBinaryOp
| andOp
  deriving DecidableEq

/-- Expressions of the flattener fragment. Under the SSA precondition the
flattener inspects only these shapes: identifiers, opaque literals, the
`Not`/`And` connectives it builds itself, ternaries, and tuples. -/
inductive FExpr
| literal (n : Nat)
| identifier (name : Symbol)
| unary (op : FUnaryOp) (receiver : FExpr)
| binary (op : FBinaryOp) (left right : FExpr)
| ternary (condition ifTrue ifFalse : FExpr)
| tuple (elements : List FExpr)

mutual
/-- Statements (`leo_ast::Statement`) of the flattener fragment, including
the dummy sentinel produced by `Statement::dummy`. `definition` and
`iteration` are opaque here: the flattener marks both `unreachable!`. -/
inductive FStatement
| assign (place : FExpr) (value : FExpr)
| block (b : FBlock)
| conditional (condition : FExpr) (thenBlock : FBlock) (otherwise : Option FStatement)
| definition
| finalize (arguments : List FExpr)
| iteration
| ret (expression : FExpr)
| dummy
/-- A basic block: a list of statements. -/
inductive FBlock
| mk (statements : List FStatement)
end

/-- The statement list of a block. -/
def FBlock.statements : FBlock → List FStatement
| .mk l => l

/-- The per-function state of the `Flattener` pass: the condition stack,
the collected `(guard, expression)` return pairs, the finalize matrix, the
tuple-alias map (an insertion-ordered association list, as `IndexMap`), and
the fresh-name counter backing `unique_simple_assign_statement` (the
record-type `structs` map is omitted: the embedded grammar has no record
expressions, so it is never consulted). -/
structure Flattener where
  conditionStack : List FExpr
  returns : List (Option FExpr × FExpr)
  finalizes : List (List (Option FExpr × FExpr))
  tuples : List (Symbol × List FExpr)
  counter : Nat

/-- Embeds `IndexMap::get` on the tuple-alias map. -/
def lookupTuple (m : List (Symbol × List FExpr)) (k : Symbol) : Option (List FExpr) :=
  match m with
  | [] => none
  | (k', v) :: rest => if k' = k then some v else lookupTuple rest k

/-- Embeds `IndexMap::insert` on the tuple-alias map: overwrites an existing key
in place, otherwise appends in insertion order. -/
def insertTuple (m : List (Symbol × List FExpr)) (k : Symbol) (v : List FExpr) :
    List (Symbol × List FExpr) :=
  match m with
  | [] => [(k, v)]
  | (k', v') :: rest =>
    if k' = k then (k, v) :: rest else (k', v') :: insertTuple rest k v

/-- Modelled from the spec: `construct_guard` returns `None` when the
condition stack is empty and otherwise the left-fold of the stack under
logical AND (its defining module is not among the sources). -/
def constructGuard (st : Flattener) : Option FExpr :=
  match st.conditionStack with
  | [] => none
  | c :: rest => some (rest.foldl (fun acc e => .binary .andOp acc e) c)

mutual
/-- Embeds `reconstruct_ternary` of `flattening/flatten_expression.rs` on
the embedded grammar. The source's first arm (both arms identifiers whose
names are in the `structs` map) is vacuous here: the embedded grammar has
no record expressions, so the structs map is never populated and that
guard never fires. As in the source, arms that are both identifiers
aliased in the tuple map recurse into a ternary over the underlying tuple
expressions (the `fuel` bound makes this non-structural recursion through
the tuple map total; the source relies on type checking for termination),
and every other shape falls to the source's final arm, split out below as
`reconstructTernaryDefault`. -/
def reconstructTernary (fuel : Nat) (st : Flattener)
    (cond ifTrue ifFalse : FExpr) : Flattener × FExpr × List FStatement :=
  match ifTrue, ifFalse with
  | .identifier a, .identifier b =>
    match lookupTuple st.tuples a, lookupTuple st.tuples b with
    | some ta, some tb =>
      (match fuel with
       | 0 => (st, .ternary cond (.identifier a) (.identifier b), [])
       | fuel' + 1 => reconstructTernary fuel' st cond (.tuple ta) (.tuple tb))
    | _, _ => reconstructTernaryDefault fuel st cond (.identifier a) (.identifier b)
  | t, f => reconstructTernaryDefault fuel st cond t f
termination_by (fuel, sizeOf ifTrue + sizeOf ifFalse + 2)

/-- The final match arm of `reconstruct_ternary` in
`flatten_expression.rs`, split out as a helper: both arms are
reconstructed in order, the rebuilt ternary is assigned to a fresh
variable (`unique_simple_assign_statement`), the new assignment is
appended after the arms' accumulated statements, and that variable is the
result. Only the fresh-name helper is not under src/; its name shape is
modelled from the spec's monotone-counter scheme. -/
def reconstructTernaryDefault (fuel : Nat) (st : Flattener)
    (cond ifTrue ifFalse : FExpr) : Flattener × FExpr × List FStatement :=
  let r1 := reconstructFExpr fuel st ifTrue
  let r2 := reconstructFExpr fuel r1.1 ifFalse
  let st2 := r2.1
  let name : Symbol := "$var$" ++ LeoStr.natRepr st2.counter
  let st3 : Flattener := { st2 with counter := st2.counter + 1 }
  (st3, .identifier name,
    r1.2.2 ++ r2.2.2 ++
      [.assign (.identifier name) (.ternary cond r1.2.1 r2.2.1)])
termination_by (fuel, sizeOf ifTrue + sizeOf ifFalse + 1)

/-- Embeds the `reconstruct_expression` dispatch of
`flatten_expression.rs` on the embedded grammar: a ternary is handled by
`reconstruct_ternary`; every other shape is returned unchanged, matching
the default `ExpressionReconstructor` recursion on expressions whose
subexpressions are identifiers or literals (which SSA guarantees at this
phase). -/
def reconstructFExpr (fuel : Nat) (st : Flattener) (e : FExpr) :
    Flattener × FExpr × List FStatement :=
  match fuel, e with
  | fuel' + 1, .ternary c t f => reconstructTernary fuel' st c t f
  | _, e => (st, e, [])
termination_by (fuel, sizeOf e)
end

/-- Embeds `reconstruct_assign` of `flattening/flatten_statement.rs`:
a tuple right-hand side (or an identifier aliasing a tuple) is recorded in
the tuple map and erased to the dummy statement; a ternary right-hand side
is lowered by `reconstruct_ternary`; anything else is re-emitted unchanged
(`update_structs` is a no-op on the embedded grammar, which has no record
expressions). The left-hand side must be an identifier (`unreachable!`
otherwise, modelled by the empty symbol). -/
def reconstructAssign (fuel : Nat) (st : Flattener) (place value : FExpr) :
    Flattener × FStatement × List FStatement :=
  let lhs : Symbol :=
    match place with
    | .identifier i => i
    | _ => ""
  match value with
  | .ternary c t f =>
    let r := reconstructTernary fuel st c t f
    (r.1, .assign (.identifier lhs) r.2.1, r.2.2)
  | .tuple elems =>
    ({ st with tuples := insertTuple st.tuples lhs elems }, .dummy, [])
  | .identifier name =>
    match lookupTuple st.tuples name with
    | some elems =>
      ({ st with tuples := insertTuple st.tuples lhs elems }, .dummy, [])
    | none => (st, .assign (.identifier lhs) (.identifier name), [])
  | v => (st, .assign (.identifier lhs) v, [])

/-- Embeds `reconstruct_finalize`: the current guard is attached to each
finalize argument and pushed onto the corresponding column of the finalize
matrix; the statement is replaced by the dummy sentinel. -/
def pushFinalizes (cols : List (List (Option FExpr × FExpr)))
    (guard : Option FExpr) (args : List FExpr) :
    List (List (Option FExpr × FExpr)) :=
  match cols, args with
  | c :: cs, a :: as_ => (c ++ [(guard, a)]) :: pushFinalizes cs guard as_
  | cs, [] => cs
  | [], _ :: _ => []

/-- Embeds `reconstruct_return` of `flatten_statement.rs`: the guard is
computed by `construct_guard`; a returned identifier aliased in the tuple
map pushes the underlying tuple, otherwise the expression itself is
pushed; the statement is replaced by the dummy sentinel. -/
def reconstructReturn (st : Flattener) (e : FExpr) :
    Flattener × FStatement × List FStatement :=
  let guard := constructGuard st
  match e with
  | .identifier name =>
    match lookupTuple st.tuples name with
    | some elems =>
      ({ st with returns := st.returns ++ [(guard, .tuple elems)] }, .dummy, [])
    | none =>
      ({ st with returns := st.returns ++ [(guard, .identifier name)] }, .dummy, [])
  | e' =>
    ({ st with returns := st.returns ++ [(guard, e')] }, .dummy, [])

mutual
/-- Embeds the `reconstruct_statement` dispatch of the flattener on the
embedded statement forms: `DefinitionStatement` and `IterationStatement`
are `unreachable!` in the source (SSA and loop unrolling have removed
them) and are modelled as erased; the dummy sentinel reconstructs to
itself. -/
def reconstructStatement (fuel : Nat) (st : Flattener) (s : FStatement) :
    Flattener × FStatement × List FStatement :=
  match s with
  | .assign place value => reconstructAssign fuel st place value
  | .block b =>
    let r := reconstructBlock fuel st b
    (r.1, .block r.2.1, r.2.2)
  | .conditional c thenB oth => reconstructConditional fuel st c thenB oth
  | .definition => (st, .dummy, [])
  | .finalize args =>
    let guard := constructGuard st
    ({ st with finalizes := pushFinalizes st.finalizes guard args }, .dummy, [])
  | .iteration => (st, .dummy, [])
  | .ret e => reconstructReturn st e
  | .dummy => (st, .dummy, [])
termination_by 2 * sizeOf s

/-- Embeds `reconstruct_conditional` of `flatten_statement.rs`: push the
condition, flatten the then-block, pop; when an otherwise-statement exists
push the `Not` of the condition, flatten the otherwise-block (SSA
guarantees it is a block; any other shape is `unreachable!`), pop; return
the dummy sentinel in place and the accumulated statements as additional
output. -/
def reconstructConditional (fuel : Nat) (st : Flattener) (cond : FExpr)
    (thenB : FBlock) (oth : Option FStatement) :
    Flattener × FStatement × List FStatement :=
  let st1 : Flattener := { st with conditionStack := st.conditionStack ++ [cond] }
  let rThen := reconstructBlock fuel st1 thenB
  let st2 : Flattener := { rThen.1 with conditionStack := rThen.1.conditionStack.dropLast }
  match oth with
  | none => (st2, .dummy, rThen.2.1.statements)
  | some s =>
    let negCond : FExpr := .unary .notOp cond
    let st3 : Flattener := { st2 with conditionStack := st2.conditionStack ++ [negCond] }
    let rElse :=
      match s with
      | .block b =>
        let r := reconstructBlock fuel st3 b
        (r.1, r.2.1.statements)
      | _ => (st3, [])
    let st4 : Flattener := { rElse.1 with conditionStack := rElse.1.conditionStack.dropLast }
    (st4, .dummy, rThen.2.1.statements ++ rElse.2)
termination_by 2 * sizeOf thenB + 2 * sizeOf oth + 1

/-- Embeds the statement loop of `reconstruct_block`: each statement is
reconstructed and its additional statements are spliced in before it. -/
def reconstructStatements (fuel : Nat) (st : Flattener) (l : List FStatement) :
    Flattener × List FStatement :=
  match l with
  | [] => (st, [])
  | s :: rest =>
    let r := reconstructStatement fuel st s
    let rr := reconstructStatements fuel r.1 rest
    (rr.1, r.2.2 ++ [r.2.1] ++ rr.2)
termination_by 2 * sizeOf l

/-- Embeds `reconstruct_block` of `flatten_statement.rs`: the statements
are flattened with splicing and the block returns no additional output. -/
def reconstructBlock (fuel : Nat) (st : Flattener) (b : FBlock) :
    Flattener × FBlock × List FStatement :=
  match b with
  | .mk stmts =>
    let r := reconstructStatements fuel st stmts
    (r.1, .mk r.2, [])
termination_by 2 * sizeOf b
end

end LeoFlat

namespace LeoParse

/-- Byte-offset source spans (`leo_span::Span`), as used by the expression
parser. -/
structure PSpan where
  lo : Nat
  hi : Nat
  deriving DecidableEq

/-- The span union `left + right` used to build a typed literal's full
span. -/
def PSpan.add (a b : PSpan) : PSpan := ⟨min a.lo b.lo, max a.hi b.hi⟩

/-- Tokens of the embedded primary-expression fragment: integer literals,
the thirteen literal-type suffixes, booleans, identifiers, and an opaque
stand-in for every remaining token. -/
inductive PToken
| int (value : String)
| fieldTok | groupTok | scalarTok
| i8 | i16 | i32 | i64 | i128
| u8 | u16 | u32 | u64 | u128
| trueTok | falseTok
| ident (name : String)
| other
  deriving DecidableEq

/-- A token paired with its span (`SpannedToken`). -/
structure SpannedToken where
  token : PToken
  span : PSpan
  deriving DecidableEq

/-- Embeds the `INT_TYPES` suffix-token list of `parser/expression.rs`. -/
def INT_TYPE_TOKENS : List PToken :=
  [.i8, .i16, .i32, .i64, .i128, .u8, .u16, .u32, .u64, .u128,
   .fieldTok, .groupTok, .scalarTok]

/-- Embeds `Parser::token_to_int_type` for the integer suffix tokens. -/
def tokenToIntType : PToken → Option LeoTC.IntegerType
| .i8 => some .i8 | .i16 => some .i16 | .i32 => some .i32
| .i64 => some .i64 | .i128 => some .i128
| .u8 => some .u8 | .u16 => some .u16 | .u32 => some .u32
| .u64 => some .u64 | .u128 => some .u128
| _ => none

/-- The display name of a suffix token (the string the source passes to
`assert_no_whitespace` via `suffix.to_string()`). -/
def suffixName : PToken → String
| .fieldTok => "field" | .groupTok => "group" | .scalarTok => "scalar"
| .i8 => "i8" | .i16 => "i16" | .i32 => "i32" | .i64 => "i64" | .i128 => "i128"
| .u8 => "u8" | .u16 => "u16" | .u32 => "u32" | .u64 => "u64" | .u128 => "u128"
| _ => ""

/-- Parser diagnostics (`ParserError` kinds of the embedded fragment). -/
inductive ParserError
| unexpectedStr (span : PSpan)
| implicitValuesNotAllowed (value : String) (span : PSpan)
| unexpectedWhitespace (left right : String) (span : PSpan)
  deriving DecidableEq

/-- Parsed primary expressions (`Expression` values produced by
`parse_primary_expression` in the embedded fragment). -/
inductive PExpression
| fieldVal (value : String) (span : PSpan)
| groupSingle (value : String) (span : PSpan)
| scalarVal (value : String) (span : PSpan)
| integer (t : LeoTC.IntegerType) (value : String) (span : PSpan)
| boolean (b : Bool) (span : PSpan)
| identifier (name : String) (span : PSpan)
  deriving DecidableEq

/-- Embeds the free function `assert_no_whitespace` of
`parser/expression.rs`: the two spans must abut exactly, otherwise
`unexpected_whitespace` is raised over the gap. -/
def assertNoWhitespace (leftSpan rightSpan : PSpan) (left right : String) :
    Except ParserError Unit :=
  if leftSpan.hi = rightSpan.lo then Except.ok ()
  else Except.error (.unexpectedWhitespace left right ⟨leftSpan.hi, rightSpan.lo⟩)

/-- Embeds `parse_primary_expression` of `parser/expression.rs` on the
embedded token fragment (parenthesized forms, strings and addresses are
outside the fragment and stand behind `other`, which errors with
`unexpected_str` as the source's final arm does). An `Int` token eats a
directly following literal-type suffix, requiring the spans to abut, and
yields the corresponding typed literal; with no suffix token following it
is rejected with `implicit_values_not_allowed`. A lone suffix keyword
parses as an identifier (the `TYPE_TOKENS` arm). -/
def parsePrimaryExpression (tokens : List SpannedToken) :
    Except ParserError (PExpression × List SpannedToken) :=
  match tokens with
  | [] => Except.error (.unexpectedStr ⟨0, 0⟩)
  | tok :: rest =>
    match tok.token with
    | .int value =>
      match rest with
      | next :: rest' =>
        if next.token ∈ INT_TYPE_TOKENS then
          match next.token with
          | .fieldTok => do
            let _ ← assertNoWhitespace tok.span next.span value "field"
            Except.ok (.fieldVal value (tok.span.add next.span), rest')
          | .groupTok => do
            let _ ← assertNoWhitespace tok.span next.span value "group"
            Except.ok (.groupSingle value (tok.span.add next.span), rest')
          | .scalarTok => do
            let _ ← assertNoWhitespace tok.span next.span value "scalar"
            Except.ok (.scalarVal value (tok.span.add next.span), rest')
          | suffix => do
            let _ ← assertNoWhitespace tok.span next.span value (suffixName suffix)
            match tokenToIntType suffix with
            | some it => Except.ok (.integer it value (tok.span.add next.span), rest')
            | none => Except.error (.unexpectedStr next.span)
        else Except.error (.implicitValuesNotAllowed value tok.span)
      | [] => Except.error (.implicitValuesNotAllowed value tok.span)
    | .trueTok => Except.ok (.boolean true tok.span, rest)
    | .falseTok => Except.ok (.boolean false tok.span, rest)
    | .ident name => Except.ok (.identifier name tok.span, rest)
    | .fieldTok => Except.ok (.identifier "field" tok.span, rest)
    | .groupTok => Except.ok (.identifier "group" tok.span, rest)
    | .scalarTok => Except.ok (.identifier "scalar" tok.span, rest)
    | .i8 => Except.ok (.identifier "i8" tok.span, rest)
    | .i16 => Except.ok (.identifier "i16" tok.span, rest)
    | .i32 => Except.ok (.identifier "i32" tok.span, rest)
    | .i64 => Except.ok (.identifier "i64" tok.span, rest)
    | .i128 => Except.ok (.identifier "i128" tok.span, rest)
    | .u8 => Except.ok (.identifier "u8" tok.span, rest)
    | .u16 => Except.ok (.identifier "u16" tok.span, rest)
    | .u32 => Except.ok (.identifier "u32" tok.span, rest)
    | .u64 => Except.ok (.identifier "u64" tok.span, rest)
    | .u128 => Except.ok (.identifier "u128" tok.span, rest)
    | .other => Except.error (.unexpectedStr tok.span)

end LeoParse

/-- The decimal digit characters have the expected code points. -/
theorem digitChar_toNat_of_lt : ∀ d : Nat, d < 10 → (LeoStr.digitChar d).toNat = 48 + d := by
  decide

/-- Peeling the last digit under `digitsVal`. -/
theorem digitsVal_append (l : List Char) (c : Char) :
    LeoStr.digitsVal (l ++ [c]) = 10 * LeoStr.digitsVal l + (c.toNat - 48) := by
  simp [LeoStr.digitsVal, List.foldl_append]

/-- Round trip: `digitsVal` inverts `natDigits`. -/
theorem digitsVal_natDigits : ∀ n : Nat, LeoStr.digitsVal (LeoStr.natDigits n) = n := by
  intro n
  induction n using Nat.strong_induction_on with
  | _ n ih =>
    rw [LeoStr.natDigits]
    by_cases h : n < 10
    · simp [h, LeoStr.digitsVal, digitChar_toNat_of_lt n h]
    · rw [dif_neg h, digitsVal_append,
        ih (n / 10) (Nat.div_lt_self (by omega) (by omega)),
        digitChar_toNat_of_lt (n % 10) (Nat.mod_lt n (by omega))]
      omega

/-- Decimal rendering of naturals is injective. -/
theorem natRepr_inj (m n : Nat) (h : LeoStr.natRepr m = LeoStr.natRepr n) : m = n := by
  have hd : LeoStr.natDigits m = LeoStr.natDigits n := by
    have hdat := congrArg String.data h
    simpa [LeoStr.natRepr] using hdat
  have hv := congrArg LeoStr.digitsVal hd
  simpa [digitsVal_natDigits] using hv

/-- Left cancellation for string concatenation. -/
theorem string_append_cancel_left (p x y : String) (h : p ++ x = p ++ y) : x = y := by
  have hdat := congrArg String.data h
  simp only [String.data_append] at hdat
  have hxy := List.append_cancel_left hdat
  cases x; cases y; exact congrArg String.mk hxy

/-- C8: every call to `Definer::unique_symbol` increments the counter by
exactly one and returns `"{arg}{separator}{i}"` with `i` the pre-increment
counter value; the counter is strictly increasing across calls and, for a
fixed base and separator, calls made at distinct counter values never
return the same symbol. -/
theorem claim_c8_unique_symbol :
    ∀ (d : LeoDefiner.DefinerInner) (arg separator : String),
      (LeoDefiner.DefinerInner.uniqueSymbol d arg separator).1.counter = d.counter + 1
      ∧ (LeoDefiner.DefinerInner.uniqueSymbol d arg separator).2
          = arg ++ separator ++ LeoStr.natRepr d.counter
      ∧ d.counter < (LeoDefiner.DefinerInner.uniqueSymbol d arg separator).1.counter
      ∧ ∀ d' : LeoDefiner.DefinerInner, d'.counter ≠ d.counter →
          (LeoDefiner.DefinerInner.uniqueSymbol d' arg separator).2
            ≠ (LeoDefiner.DefinerInner.uniqueSymbol d arg separator).2 := by
  intro d arg separator
  refine ⟨rfl, by simp [LeoDefiner.DefinerInner.uniqueSymbol], by simp [LeoDefiner.DefinerInner.uniqueSymbol], ?_⟩
  intro d' hne h
  simp only [LeoDefiner.DefinerInner.uniqueSymbol, Nat.add_sub_cancel] at h
  exact hne (natRepr_inj d'.counter d.counter (string_append_cancel_left (arg ++ separator) _ _ h))

/-- Witness for C8 at concrete counters 1 and 0. -/
theorem claim_c8_witness :
    (LeoDefiner.DefinerInner.uniqueSymbol ⟨1⟩ "x" "$").2
      ≠ (LeoDefiner.DefinerInner.uniqueSymbol ⟨0⟩ "x" "$").2 :=
  (claim_c8_unique_symbol ⟨0⟩ "x" "$").2.2.2 ⟨1⟩ (by decide)

/-- C6: resolving `["core","unstable","blake2s"]` through the core-first
chained resolver returns `Ok(Some(program))` where the program is the
synthesized `Blake2s` record whose sole member `hash` has signature
`(seed: [u8; 32], message: [u8; 32]) -> [u8; 32]` and whose core-mapping
tag is `"blake2s"`; resolving `["core", p]` for any path not in the
registry (in particular `["core","nonexistent"]`) returns `Ok(None)`. -/
theorem claim_c6_core_resolution :
    ∀ (inner : LeoResolve.ImportResolver) (sp : LeoResolve.RSpan),
      LeoResolve.coreResolvePackage inner ["core", "unstable", "blake2s"] sp
        = Except.ok (some LeoResolve.blake2sProgram)
      ∧ LeoResolve.blake2sProgram.coreMapping = some "blake2s"
      ∧ LeoResolve.blake2sProgram.circuits
          = [("Blake2s",
              { name := "Blake2s",
                members :=
                  [LeoResolve.CircuitMember.fn
                    { name := "hash",
                      params :=
                        [("seed", LeoResolve.AstType.array LeoResolve.AstType.u8 32),
                         ("message", LeoResolve.AstType.array LeoResolve.AstType.u8 32)],
                      returnType := LeoResolve.AstType.array LeoResolve.AstType.u8 32 }] })]
      ∧ ∀ rest : List String, String.intercalate "." rest ≠ "unstable.blake2s" →
          LeoResolve.coreResolvePackage inner ("core" :: rest) sp = Except.ok none := by
  intro inner sp
  refine ⟨by rfl, rfl, rfl, ?_⟩
  intro rest hrest
  simp [LeoResolve.coreResolvePackage, LeoResolve.resolveCoreModule, hrest]

/-- Witness for C6: the unregistered path `["core","nonexistent"]` resolves
to `Ok(None)`. -/
theorem claim_c6_witness :
    LeoResolve.coreResolvePackage LeoResolve.nullImportResolver
      ["core", "nonexistent"] ⟨0, 0⟩ = Except.ok none :=
  (claim_c6_core_resolution LeoResolve.nullImportResolver ⟨0, 0⟩).2.2.2
    ["nonexistent"] (by decide)

/-- C10: `CoreImportResolver::resolve_package` on an empty segment list
does not attempt core resolution but delegates to the inner resolver; with
`NullImportResolver` inside it returns `Ok(None)`. -/
theorem claim_c10_empty_segments :
    ∀ (inner : LeoResolve.ImportResolver) (sp : LeoResolve.RSpan),
      LeoResolve.coreResolvePackage inner [] sp = inner [] sp
      ∧ LeoResolve.coreResolvePackage LeoResolve.nullImportResolver [] sp
          = Except.ok none := by
  intro inner sp
  exact ⟨rfl, rfl⟩

/-- Forcing a type through `replace` always yields that type. -/
theorem typeOf_replace (o : LeoTC.TypeOutput) (t : LeoTC.Ty) :
    (LeoTC.TypeOutput.replace o t).typeOf = some t := by
  cases o <;> rfl

/-- C2: the checker's single `negate` bit is toggled by unary negation
around the visit of its operand (and restored afterwards, here by
parameter threading), and signed-integer literal parsing prepends a minus
sign exactly when the bit is set; consequently `-128i8` type-checks with
annotated value `-128`, while `128i8` (no negation) and `-(-128i8)` (two
negations, bit back to `false`) each emit `invalid_int_value` for the
positive payload 128 overflowing `i8`. -/
theorem claim_c2_negate_folding :
    (∀ (neg : Bool) (e : LeoTC.TCExpr) (exp : Option LeoTC.Ty),
       LeoTC.visitExpr neg (.unary .negate e) exp
         = ((LeoTC.visitExpr (!neg) e exp).1,
            (LeoTC.visitExpr (!neg) e exp).2
              ++ LeoTC.negateCheck (LeoTC.visitExpr (!neg) e exp).1))
    ∧ LeoTC.visitExpr false (.unary .negate (.literal (.integer .i8 128))) none
        = (.constVal (.i8 (-128)), [])
    ∧ LeoTC.visitExpr false (.literal (.integer .i8 128)) none
        = (.none, [.invalidIntValue 128 .i8])
    ∧ LeoTC.visitExpr false
        (.unary .negate (.unary .negate (.literal (.integer .i8 128)))) none
        = (.none, [.invalidIntValue 128 .i8]) := by
  refine ⟨?_, by decide, by decide, by decide⟩
  intro neg e exp
  rfl

/-- C9: `visit_literal` on an unsigned-integer literal gives the same
result whether the `negate` flag is set or not (the flag is consulted only
for signed-integer literals); negating an in-range unsigned literal adds
exactly a `type_is_not_negatable` diagnostic in `visit_unary`, never an
`invalid_int_value` at the literal. -/
theorem claim_c9_unsigned_literal_negate_independence :
    ∀ (t : LeoTC.IntegerType), t.isSigned = false →
      ∀ (n : Nat) (b : Bool) (exp : Option LeoTC.Ty),
        LeoTC.visitLiteral b (.integer t n) exp
          = LeoTC.visitLiteral false (.integer t n) exp
        ∧ LeoTC.visitExpr b (.literal (.integer t n)) exp
            = LeoTC.visitExpr false (.literal (.integer t n)) exp
        ∧ (n < 2 ^ t.bits →
            (LeoTC.visitExpr b (.unary .negate (.literal (.integer t n))) exp).2
              = (LeoTC.visitExpr false (.literal (.integer t n)) exp).2
                ++ [.typeIsNotNegatable (.integerType t)]) := by
  intro t ht n b exp
  refine ⟨?_, ?_, ?_⟩
  · simp [LeoTC.visitLiteral, ht]
  · show LeoTC.visitLiteral b (.integer t n) exp
        = LeoTC.visitLiteral false (.integer t n) exp
    simp [LeoTC.visitLiteral, ht]
  · intro hn
    show (LeoTC.visitLiteral (!b) (.integer t n) exp).2
          ++ LeoTC.negateCheck (LeoTC.visitLiteral (!b) (.integer t n) exp).1
        = (LeoTC.visitLiteral false (.integer t n) exp).2
          ++ [.typeIsNotNegatable (.integerType t)]
    cases t <;> simp_all [LeoTC.visitLiteral, LeoTC.parseUnsignedPayload,
      LeoTC.mkUnsigned, LeoTC.negateCheck, LeoTC.TypeOutput.typeOf,
      LeoTC.Value.typeOf, LeoTC.IntegerType.isSigned, LeoTC.IntegerType.bits]

/-- Witness for C9 at `5u8` with the negate flag set. -/
theorem claim_c9_witness :
    LeoTC.visitLiteral true (.integer .u8 5) none
      = LeoTC.visitLiteral false (.integer .u8 5) none
    ∧ (LeoTC.visitExpr true (.unary .negate (.literal (.integer .u8 5))) none).2
        = (LeoTC.visitExpr false (.literal (.integer .u8 5)) none).2
          ++ [.typeIsNotNegatable (.integerType .u8)] :=
  ⟨(claim_c9_unsigned_literal_negate_independence .u8 rfl 5 true none).1,
   (claim_c9_unsigned_literal_negate_independence .u8 rfl 5 true none).2.2 (by decide)⟩

/-- C3 counterexample: `2field ** 3u8` (field base, integer exponent) emits
a `type_should_be` diagnostic although the claim says a field base accepts
any integer exponent, and `2group ** 3u8` (a base that is neither field nor
integer) is accepted with result type `group` although the claim says such
a base is diagnosed. -/
theorem claim_c3_counterexample :
    (LeoTC.visitExpr false
        (.binary .pow (.literal (.field 2)) (.literal (.integer .u8 3))) none).2
      = [.typeShouldBe (some (.integerType .u8)) .field]
    ∧ (LeoTC.visitExpr false
        (.binary .pow (.literal (.group 2)) (.literal (.integer .u8 3))) none).2 = []
    ∧ (LeoTC.visitExpr false
        (.binary .pow (.literal (.group 2)) (.literal (.integer .u8 3))) none).1.typeOf
      = some .group := by
  decide

/-- C3 amended: for `b ** e` visited with no expected type, when either
operand's inferred type is `field` the other operand is checked against
`field` (`type_should_be` on a known mismatch) and the result is `field`;
otherwise, with the base's type known, the exponent is checked against the
magnitude types u8/u16/u32 (`expected_one_type_of` on a known mismatch) and
the result takes the base's type; with the base's type unknown the
magnitude check still applies and the exponent's output is returned. No
check constrains the base's own class. -/
theorem claim_c3_pow_amended :
    ∀ (e1 e2 : LeoTC.TCExpr),
      ((LeoTC.visitExpr false e1 none).1.typeOf = some .field →
        (LeoTC.visitExpr false (.binary .pow e1 e2) none).2
          = (LeoTC.visitExpr false e1 none).2 ++ (LeoTC.visitExpr false e2 none).2
            ++ (LeoTC.assertExpectedType (LeoTC.visitExpr false e2 none).1.typeOf
                  .none .field).2
        ∧ (LeoTC.visitExpr false (.binary .pow e1 e2) none).1.typeOf = some .field)
      ∧ ((LeoTC.visitExpr false e1 none).1.typeOf ≠ some .field →
         (LeoTC.visitExpr false e2 none).1.typeOf = some .field →
        (LeoTC.visitExpr false (.binary .pow e1 e2) none).2
          = (LeoTC.visitExpr false e1 none).2 ++ (LeoTC.visitExpr false e2 none).2
            ++ (LeoTC.assertExpectedType (LeoTC.visitExpr false e1 none).1.typeOf
                  .none .field).2
        ∧ (LeoTC.visitExpr false (.binary .pow e1 e2) none).1.typeOf = some .field)
      ∧ (∀ t1ty : LeoTC.Ty, (LeoTC.visitExpr false e1 none).1.typeOf = some t1ty →
         t1ty ≠ .field → (LeoTC.visitExpr false e2 none).1.typeOf ≠ some .field →
        (LeoTC.visitExpr false (.binary .pow e1 e2) none).2
          = (LeoTC.visitExpr false e1 none).2 ++ (LeoTC.visitExpr false e2 none).2
            ++ LeoTC.assertOneOfTypes (LeoTC.visitExpr false e2 none).1.typeOf
                LeoTC.MAGNITUDE_TYPES
        ∧ (LeoTC.visitExpr false (.binary .pow e1 e2) none).1.typeOf = some t1ty)
      ∧ ((LeoTC.visitExpr false e1 none).1.typeOf = none →
         (LeoTC.visitExpr false e2 none).1.typeOf ≠ some .field →
        LeoTC.visitExpr false (.binary .pow e1 e2) none
          = ((LeoTC.visitExpr false e2 none).1,
             (LeoTC.visitExpr false e1 none).2 ++ (LeoTC.visitExpr false e2 none).2
               ++ LeoTC.assertOneOfTypes (LeoTC.visitExpr false e2 none).1.typeOf
                   LeoTC.MAGNITUDE_TYPES)) := by
  intro e1 e2
  have hdef : LeoTC.visitExpr false (.binary .pow e1 e2) none
      = (let r1 := LeoTC.visitExpr false e1 none
         let r2 := LeoTC.visitExpr false e2 none
         let combined := LeoTC.returnIncorrectType r1.1 r2.1 none
         match r1.1.typeOf, r2.1.typeOf with
         | some .field, t2ty =>
           let cA := LeoTC.assertExpectedType t2ty .none .field
           let cB := LeoTC.assertExpectedType none combined .field
           (cB.1, r1.2 ++ r2.2 ++ cA.2 ++ cB.2)
         | t1ty, some .field =>
           let cA := LeoTC.assertExpectedType t1ty .none .field
           let cB := LeoTC.assertExpectedType none combined .field
           (cB.1, r1.2 ++ r2.2 ++ cA.2 ++ cB.2)
         | some t1ty, t2ty =>
           let eA := LeoTC.assertOneOfTypes t2ty LeoTC.MAGNITUDE_TYPES
           let cB := LeoTC.assertExpectedType none combined t1ty
           (cB.1, r1.2 ++ r2.2 ++ eA ++ cB.2)
         | none, t2ty =>
           let eA := LeoTC.assertOneOfTypes t2ty LeoTC.MAGNITUDE_TYPES
           (r2.1, r1.2 ++ r2.2 ++ eA)) := rfl
  refine ⟨?_, ?_, ?_, ?_⟩
  · intro h1
    rw [hdef]
    simp only [h1, LeoTC.assertExpectedType]
    exact ⟨by simp, typeOf_replace _ _⟩
  · intro h1 h2
    rw [hdef]
    rcases ht1 : (LeoTC.visitExpr false e1 none).1.typeOf with _ | ty1
    · simp only [ht1, h2, LeoTC.assertExpectedType]
      exact ⟨by simp, typeOf_replace _ _⟩
    · have hne : ty1 ≠ LeoTC.Ty.field := by
        intro hc; exact h1 (by rw [ht1, hc])
      cases ty1 <;> simp_all [LeoTC.assertExpectedType, typeOf_replace]
  · intro t1ty h1 hne h2
    rw [hdef]
    rcases ht2 : (LeoTC.visitExpr false e2 none).1.typeOf with _ | ty2
    · cases t1ty <;>
        simp_all [LeoTC.assertExpectedType, LeoTC.assertOneOfTypes, typeOf_replace]
    · have hne2 : ty2 ≠ LeoTC.Ty.field := by
        intro hc; exact h2 (by rw [ht2, hc])
      cases t1ty <;> cases ty2 <;>
        simp_all [LeoTC.assertExpectedType, typeOf_replace]
  · intro h1 h2
    rw [hdef]
    rcases ht2 : (LeoTC.visitExpr false e2 none).1.typeOf with _ | ty2
    · simp [h1, ht2]
    · have hne2 : ty2 ≠ LeoTC.Ty.field := by
        intro hc; exact h2 (by rw [ht2, hc])
      cases ty2 <;> simp_all

/-- Witness for C3 amended at `1field ** 2u16`. -/
theorem claim_c3_amended_witness :
    (LeoTC.visitExpr false
        (.binary .pow (.literal (.field 1)) (.literal (.integer .u16 2))) none).2
      = [.typeShouldBe (some (.integerType .u16)) .field] := by
  have h := (claim_c3_pow_amended (.literal (.field 1)) (.literal (.integer .u16 2))).1
    (by decide)
  exact h.1.trans (by decide)

/-- C4 counterexample: `1group * 5u8` emits `type_should_be` (`u8` should
be `scalar`), not `expected_one_type_of` as the claim states. -/
theorem claim_c4_counterexample :
    (LeoTC.visitExpr false
        (.binary .mul (.literal (.group 1)) (.literal (.integer .u8 5))) none).2
      = [.typeShouldBe (some (.integerType .u8)) .scalar] := by
  decide

/-- C4 amended: for a multiplication visited with no expected type, when
one operand's inferred type is `group` the other is checked against
`scalar` and the result type is `group`; in particular `1group * 5scalar`
type-checks to `group` with no diagnostic, while `1group * 5u8` emits
`type_should_be` (`u8` should be `scalar`), not `expected_one_type_of`. -/
theorem claim_c4_mul_amended :
    (LeoTC.visitExpr false
        (.binary .mul (.literal (.group 1)) (.literal (.scalar 5))) none).2 = []
    ∧ (LeoTC.visitExpr false
        (.binary .mul (.literal (.group 1)) (.literal (.scalar 5))) none).1.typeOf
      = some .group
    ∧ ∀ (e1 e2 : LeoTC.TCExpr),
      ((LeoTC.visitExpr false e1 none).1.typeOf = some .group →
        ∀ t2ty : LeoTC.Ty, (LeoTC.visitExpr false e2 none).1.typeOf = some t2ty →
          t2ty ≠ .scalar →
          (LeoTC.visitExpr false (.binary .mul e1 e2) none).2
            = (LeoTC.visitExpr false e1 none).2 ++ (LeoTC.visitExpr false e2 none).2
              ++ [.typeShouldBe (some t2ty) .scalar]
          ∧ (LeoTC.visitExpr false (.binary .mul e1 e2) none).1.typeOf = some .group)
      ∧ ((LeoTC.visitExpr false e1 none).1.typeOf = some .group →
         (LeoTC.visitExpr false e2 none).1.typeOf = some .scalar →
          (LeoTC.visitExpr false (.binary .mul e1 e2) none).2
            = (LeoTC.visitExpr false e1 none).2 ++ (LeoTC.visitExpr false e2 none).2
          ∧ (LeoTC.visitExpr false (.binary .mul e1 e2) none).1.typeOf = some .group)
      ∧ ((LeoTC.visitExpr false e1 none).1.typeOf ≠ some .group →
         (LeoTC.visitExpr false e2 none).1.typeOf = some .group →
        ∀ t1ty : LeoTC.Ty, (LeoTC.visitExpr false e1 none).1.typeOf = some t1ty →
          t1ty ≠ .scalar →
          (LeoTC.visitExpr false (.binary .mul e1 e2) none).2
            = (LeoTC.visitExpr false e1 none).2 ++ (LeoTC.visitExpr false e2 none).2
              ++ [.typeShouldBe (some t1ty) .scalar]
          ∧ (LeoTC.visitExpr false (.binary .mul e1 e2) none).1.typeOf = some .group) := by
  refine ⟨by decide, by decide, ?_⟩
  intro e1 e2
  have hdef : LeoTC.visitExpr false (.binary .mul e1 e2) none
      = (let r1 := LeoTC.visitExpr false e1 none
         let r2 := LeoTC.visitExpr false e2 none
         let combined := LeoTC.returnIncorrectType r1.1 r2.1 none
         match r1.1.typeOf, r2.1.typeOf with
         | some .group, other =>
           let cA := LeoTC.assertExpectedType other .none .scalar
           let cB := LeoTC.assertExpectedType none combined .group
           (cB.1, [] ++ r1.2 ++ r2.2 ++ cA.2 ++ cB.2)
         | other, some .group =>
           let cA := LeoTC.assertExpectedType other .none .scalar
           let cB := LeoTC.assertExpectedType none combined .group
           (cB.1, [] ++ r1.2 ++ r2.2 ++ cA.2 ++ cB.2)
         | _, _ =>
           (combined, [] ++ r1.2 ++ r2.2 ++ LeoTC.assertOneOfTypes none LeoTC.FIELD_INT_TYPES)) := rfl
  refine ⟨?_, ?_, ?_⟩
  · intro h1 t2ty h2 hne
    rw [hdef]
    simp only [h1, h2]
    cases t2ty <;> simp_all [LeoTC.assertExpectedType, typeOf_replace]
  · intro h1 h2
    rw [hdef]
    simp only [h1, h2]
    simp [LeoTC.assertExpectedType, typeOf_replace]
  · intro h1 h2 t1ty h1' hne
    rw [hdef]
    rcases hne1 : (LeoTC.visitExpr false e1 none).1.typeOf with _ | ty1
    · rw [hne1] at h1'; cases h1'
    · rw [hne1] at h1'
      have hty1 : ty1 = t1ty := by injection h1'
      subst hty1
      have hng : ty1 ≠ LeoTC.Ty.group := by
        intro hc; exact h1 (by rw [hne1, hc])
      cases ty1 <;> simp_all [LeoTC.assertExpectedType, typeOf_replace]

/-- Witness for C4 amended at `1group * 2u16`. -/
theorem claim_c4_amended_witness :
    (LeoTC.visitExpr false
        (.binary .mul (.literal (.group 1)) (.literal (.integer .u16 2))) none).2
      = [.typeShouldBe (some (.integerType .u16)) .scalar] := by
  have h := ((claim_c4_mul_amended).2.2 (.literal (.group 1)) (.literal (.integer .u16 2))).1
    (by decide) (.integerType .u16) (by decide) (by decide)
  exact h.1.trans (by decide)

/-- Flattener expressions have positive size. -/
theorem fexpr_sizeOf_pos (e : LeoFlat.FExpr) : 0 < sizeOf e := by
  cases e <;> simp

/-- The ternary-lowering helpers do not touch the condition stack. -/
theorem ternary_stack_preserved :
    ∀ (fuel : Nat) (st : LeoFlat.Flattener) (c t f : LeoFlat.FExpr),
      (LeoFlat.reconstructTernary fuel st c t f).1.conditionStack
        = st.conditionStack := by
  have main := LeoFlat.reconstructTernary.induct
    (fun fuel st c t f =>
      (LeoFlat.reconstructTernary fuel st c t f).1.conditionStack = st.conditionStack)
    (fun fuel st c t f =>
      (LeoFlat.reconstructTernaryDefault fuel st c t f).1.conditionStack = st.conditionStack)
    (fun fuel st e =>
      (LeoFlat.reconstructFExpr fuel st e).1.conditionStack = st.conditionStack)
  refine main ?_ ?_ ?_ ?_ ?_ ?_ ?_
  · intro st cond a b ta tb hb ha
    simp [LeoFlat.reconstructTernary, ha, hb]
  · intro st cond a b ta tb hb ha fuel' ihrec
    simpa [LeoFlat.reconstructTernary, ha, hb] using ihrec
  · intro fuel st cond a b hnot ihdef
    rcases hA : LeoFlat.lookupTuple st.tuples a with _ | ta
    · simpa [LeoFlat.reconstructTernary, hA] using ihdef
    · rcases hB : LeoFlat.lookupTuple st.tuples b with _ | tb
      · simpa [LeoFlat.reconstructTernary, hA, hB] using ihdef
      · exact (hnot ta tb hA hB).elim
  · intro fuel st cond t f hnot ihdef
    cases t <;> cases f <;>
      first
      | exact (hnot _ _ rfl rfl).elim
      | simpa [LeoFlat.reconstructTernary] using ihdef
  · intro fuel st cond ifTrue ifFalse ih1 ih2
    simp [LeoFlat.reconstructTernaryDefault, ih2, ih1]
  · intro st fuel' c t f ihrec
    simpa [LeoFlat.reconstructFExpr] using ihrec
  · intro fuel st e hnot
    cases fuel with
    | zero => cases e <;> simp [LeoFlat.reconstructFExpr]
    | succ fuel' =>
      cases e with
      | ternary c t f => exact (hnot fuel' c t f rfl rfl).elim
      | _ => simp [LeoFlat.reconstructFExpr]

/-- Reconstruction of an assignment does not touch the condition stack. -/
theorem assign_stack_preserved (fuel : Nat) (st : LeoFlat.Flattener)
    (p v : LeoFlat.FExpr) :
    (LeoFlat.reconstructAssign fuel st p v).1.conditionStack = st.conditionStack := by
  cases v with
  | ternary c t f => simp [LeoFlat.reconstructAssign, ternary_stack_preserved]
  | tuple elems => simp [LeoFlat.reconstructAssign]
  | identifier name =>
    rcases h : LeoFlat.lookupTuple st.tuples name with _ | elems <;>
      simp [LeoFlat.reconstructAssign, h]
  | literal n => simp [LeoFlat.reconstructAssign]
  | unary op r => simp [LeoFlat.reconstructAssign]
  | binary op l r => simp [LeoFlat.reconstructAssign]

/-- Reconstruction of a return does not touch the condition stack. -/
theorem return_stack_preserved (st : LeoFlat.Flattener) (e : LeoFlat.FExpr) :
    (LeoFlat.reconstructReturn st e).1.conditionStack = st.conditionStack := by
  cases e with
  | identifier name =>
    rcases h : LeoFlat.lookupTuple st.tuples name with _ | elems <;>
      simp [LeoFlat.reconstructReturn, h]
  | _ => simp [LeoFlat.reconstructReturn]

/-- Statement reconstruction preserves the condition stack: every push in
`reconstruct_conditional` is matched by the following pop. Proved for all
four mutually recursive reconstruction functions at once by strong
induction on the termination measure. -/
theorem flat_stack_preserved :
    ∀ k : Nat,
      (∀ (fuel : Nat) (st : LeoFlat.Flattener) (s : LeoFlat.FStatement),
        2 * sizeOf s ≤ k →
        (LeoFlat.reconstructStatement fuel st s).1.conditionStack = st.conditionStack)
      ∧ (∀ (fuel : Nat) (st : LeoFlat.Flattener) (c : LeoFlat.FExpr)
          (thenB : LeoFlat.FBlock) (oth : Option LeoFlat.FStatement),
        2 * sizeOf thenB + 2 * sizeOf oth + 1 ≤ k →
        (LeoFlat.reconstructConditional fuel st c thenB oth).1.conditionStack
          = st.conditionStack)
      ∧ (∀ (fuel : Nat) (st : LeoFlat.Flattener) (l : List LeoFlat.FStatement),
        2 * sizeOf l ≤ k →
        (LeoFlat.reconstructStatements fuel st l).1.conditionStack = st.conditionStack)
      ∧ (∀ (fuel : Nat) (st : LeoFlat.Flattener) (b : LeoFlat.FBlock),
        2 * sizeOf b ≤ k →
        (LeoFlat.reconstructBlock fuel st b).1.conditionStack = st.conditionStack) := by
  intro k
  induction k using Nat.strong_induction_on with
  | _ k ih =>
    refine ⟨?_, ?_, ?_, ?_⟩
    · intro fuel st s hle
      cases s with
      | assign p v =>
        simpa [LeoFlat.reconstructStatement] using assign_stack_preserved fuel st p v
      | block b =>
        have hlt : 2 * sizeOf b < k := by simp at hle; omega
        simpa [LeoFlat.reconstructStatement] using
          (ih _ hlt).2.2.2 fuel st b le_rfl
      | conditional c thenB oth =>
        have hc := fexpr_sizeOf_pos c
        have hlt : 2 * sizeOf thenB + 2 * sizeOf oth + 1 < k := by
          simp at hle; omega
        simpa [LeoFlat.reconstructStatement] using
          (ih _ hlt).2.1 fuel st c thenB oth le_rfl
      | definition => simp [LeoFlat.reconstructStatement]
      | finalize args => simp [LeoFlat.reconstructStatement]
      | iteration => simp [LeoFlat.reconstructStatement]
      | ret e =>
        simpa [LeoFlat.reconstructStatement] using return_stack_preserved st e
      | dummy => simp [LeoFlat.reconstructStatement]
    · intro fuel st c thenB oth hle
      have hthen : 2 * sizeOf thenB < k := by omega
      have hthenEq := (ih _ hthen).2.2.2 fuel
        { st with conditionStack := st.conditionStack ++ [c] } thenB le_rfl
      cases oth with
      | none =>
        simp [LeoFlat.reconstructConditional, hthenEq]
      | some s =>
        cases s with
        | block b =>
          have hblt : 2 * sizeOf b < k := by simp at hle; omega
          have helseEq : ∀ st' : LeoFlat.Flattener,
              (LeoFlat.reconstructBlock fuel st' b).1.conditionStack
                = st'.conditionStack :=
            fun st' => (ih _ hblt).2.2.2 fuel st' b le_rfl
          simp [LeoFlat.reconstructConditional, hthenEq, helseEq]
        | assign p v => simp [LeoFlat.reconstructConditional, hthenEq]
        | conditional c2 t2 o2 => simp [LeoFlat.reconstructConditional, hthenEq]
        | definition => simp [LeoFlat.reconstructConditional, hthenEq]
        | finalize args => simp [LeoFlat.reconstructConditional, hthenEq]
        | iteration => simp [LeoFlat.reconstructConditional, hthenEq]
        | ret e => simp [LeoFlat.reconstructConditional, hthenEq]
        | dummy => simp [LeoFlat.reconstructConditional, hthenEq]
    · intro fuel st l hle
      cases l with
      | nil => simp [LeoFlat.reconstructStatements]
      | cons s rest =>
        have hs : 2 * sizeOf s < k := by simp at hle; omega
        have hr : 2 * sizeOf rest < k := by simp at hle; omega
        have h1 := (ih _ hs).1 fuel st s le_rfl
        have h2 := (ih _ hr).2.2.1 fuel
          (LeoFlat.reconstructStatement fuel st s).1 rest le_rfl
        simp [LeoFlat.reconstructStatements, h2, h1]
    · intro fuel st b hle
      cases b with
      | mk stmts =>
        have hlt : 2 * sizeOf stmts < k := by simp at hle; omega
        simpa [LeoFlat.reconstructBlock] using
          (ih _ hlt).2.2.1 fuel st stmts le_rfl

/-- Splitting the statement loop of `reconstruct_block` across an append. -/
theorem reconstructStatements_append :
    ∀ (fuel : Nat) (l1 l2 : List LeoFlat.FStatement) (st : LeoFlat.Flattener),
      LeoFlat.reconstructStatements fuel st (l1 ++ l2)
        = ((LeoFlat.reconstructStatements fuel
              (LeoFlat.reconstructStatements fuel st l1).1 l2).1,
           (LeoFlat.reconstructStatements fuel st l1).2
             ++ (LeoFlat.reconstructStatements fuel
                  (LeoFlat.reconstructStatements fuel st l1).1 l2).2) := by
  intro fuel l1
  induction l1 with
  | nil => intro l2 st; simp [LeoFlat.reconstructStatements]
  | cons s rest ih =>
    intro l2 st
    simp [LeoFlat.reconstructStatements, ih]

/-- A conditional always reconstructs in place to the dummy sentinel. -/
theorem conditional_returns_dummy
    (fuel : Nat) (st : LeoFlat.Flattener) (cond : LeoFlat.FExpr)
    (thenB : LeoFlat.FBlock) (oth : Option LeoFlat.FStatement) :
    (LeoFlat.reconstructConditional fuel st cond thenB oth).2.1
      = LeoFlat.FStatement.dummy := by
  cases oth with
  | none => simp [LeoFlat.reconstructConditional]
  | some s => cases s <;> simp [LeoFlat.reconstructConditional]

/-- C1: `reconstruct_conditional` pushes the condition, flattens the
then-block, and pops; when an else-block exists it pushes the logical
negation of the condition, flattens the else-block, and pops; it returns
the dummy sentinel in place together with the flattened then-statements
followed by the flattened else-statements as additional output, the
condition stack ends where it started, and `reconstruct_block` splices the
additional output into the enclosing block just before the sentinel. -/
theorem claim_c1_conditional_flattening :
    ∀ (fuel : Nat) (st : LeoFlat.Flattener) (cond : LeoFlat.FExpr)
      (thenB elseB : LeoFlat.FBlock) (oth : Option LeoFlat.FStatement)
      (pre post : List LeoFlat.FStatement),
      LeoFlat.reconstructConditional fuel st cond thenB (some (.block elseB))
        = (let st1 : LeoFlat.Flattener :=
             { st with conditionStack := st.conditionStack ++ [cond] }
           let rThen := LeoFlat.reconstructBlock fuel st1 thenB
           let st2 : LeoFlat.Flattener :=
             { rThen.1 with conditionStack := rThen.1.conditionStack.dropLast }
           let st3 : LeoFlat.Flattener :=
             { st2 with conditionStack := st2.conditionStack
                 ++ [.unary .notOp cond] }
           let rElse := LeoFlat.reconstructBlock fuel st3 elseB
           let st4 : LeoFlat.Flattener :=
             { rElse.1 with conditionStack := rElse.1.conditionStack.dropLast }
           (st4, .dummy, rThen.2.1.statements ++ rElse.2.1.statements))
      ∧ LeoFlat.reconstructConditional fuel st cond thenB none
        = (let st1 : LeoFlat.Flattener :=
             { st with conditionStack := st.conditionStack ++ [cond] }
           let rThen := LeoFlat.reconstructBlock fuel st1 thenB
           let st2 : LeoFlat.Flattener :=
             { rThen.1 with conditionStack := rThen.1.conditionStack.dropLast }
           (st2, .dummy, rThen.2.1.statements))
      ∧ (LeoFlat.reconstructConditional fuel st cond thenB oth).1.conditionStack
          = st.conditionStack
      ∧ LeoFlat.reconstructBlock fuel st
          (.mk (pre ++ [.conditional cond thenB oth] ++ post))
        = (let rPre := LeoFlat.reconstructStatements fuel st pre
           let rC := LeoFlat.reconstructConditional fuel rPre.1 cond thenB oth
           let rPost := LeoFlat.reconstructStatements fuel rC.1 post
           (rPost.1, .mk (rPre.2 ++ rC.2.2 ++ [.dummy] ++ rPost.2), [])) := by
  intro fuel st cond thenB elseB oth pre post
  refine ⟨by simp [LeoFlat.reconstructConditional], by simp [LeoFlat.reconstructConditional], ?_, ?_⟩
  · exact (flat_stack_preserved
      (2 * sizeOf thenB + 2 * sizeOf oth + 1)).2.1 fuel st cond thenB oth le_rfl
  · have hsplit := reconstructStatements_append fuel pre
      ([.conditional cond thenB oth] ++ post) st
    have hsingle : ∀ st' : LeoFlat.Flattener,
        LeoFlat.reconstructStatements fuel st'
            ([.conditional cond thenB oth] ++ post)
          = ((LeoFlat.reconstructStatements fuel
                (LeoFlat.reconstructConditional fuel st' cond thenB oth).1 post).1,
             (LeoFlat.reconstructConditional fuel st' cond thenB oth).2.2
               ++ [.dummy]
               ++ (LeoFlat.reconstructStatements fuel
                    (LeoFlat.reconstructConditional fuel st' cond thenB oth).1 post).2) := by
      intro st'
      have hstmt : LeoFlat.reconstructStatement fuel st' (.conditional cond thenB oth)
          = LeoFlat.reconstructConditional fuel st' cond thenB oth := by
        simp [LeoFlat.reconstructStatement]
      simp [LeoFlat.reconstructStatements, hstmt, conditional_returns_dummy]
    have hblock : LeoFlat.reconstructBlock fuel st
        (.mk (pre ++ [.conditional cond thenB oth] ++ post))
        = ((LeoFlat.reconstructStatements fuel st
              (pre ++ ([.conditional cond thenB oth] ++ post))).1,
           .mk (LeoFlat.reconstructStatements fuel st
              (pre ++ ([.conditional cond thenB oth] ++ post))).2, []) := by
      simp [LeoFlat.reconstructBlock, List.append_assoc]
    rw [hblock, hsplit, hsingle]
    simp

/-- C5: `reconstruct_return` computes the guard via `construct_guard`
(`None` on an empty condition stack, otherwise the left AND-fold of the
stack), pushes the pair of guard and returned expression — with an
identifier registered in the tuple map replaced by the underlying tuple —
onto the returns list, and replaces the statement with the dummy
sentinel. -/
theorem claim_c5_return_flattening :
    ∀ (st : LeoFlat.Flattener) (e : LeoFlat.FExpr),
      (st.conditionStack = [] → LeoFlat.constructGuard st = none)
      ∧ (∀ (c : LeoFlat.FExpr) (rest : List LeoFlat.FExpr),
          st.conditionStack = c :: rest →
          LeoFlat.constructGuard st
            = some (rest.foldl (fun acc x => .binary .andOp acc x) c))
      ∧ (∀ (name : LeoFlat.Symbol) (elems : List LeoFlat.FExpr),
          e = .identifier name →
          LeoFlat.lookupTuple st.tuples name = some elems →
          LeoFlat.reconstructReturn st e
            = ({ st with returns :=
                   st.returns ++ [(LeoFlat.constructGuard st, .tuple elems)] },
               .dummy, []))
      ∧ (∀ name : LeoFlat.Symbol, e = .identifier name →
          LeoFlat.lookupTuple st.tuples name = none →
          LeoFlat.reconstructReturn st e
            = ({ st with returns :=
                   st.returns ++ [(LeoFlat.constructGuard st, e)] },
               .dummy, []))
      ∧ ((∀ name : LeoFlat.Symbol, e ≠ .identifier name) →
          LeoFlat.reconstructReturn st e
            = ({ st with returns :=
                   st.returns ++ [(LeoFlat.constructGuard st, e)] },
               .dummy, [])) := by
  intro st e
  refine ⟨?_, ?_, ?_, ?_, ?_⟩
  · intro h; simp [LeoFlat.constructGuard, h]
  · intro c rest h; simp [LeoFlat.constructGuard, h]
  · intro name elems he hl
    subst he
    simp [LeoFlat.reconstructReturn, hl]
  · intro name he hl
    subst he
    simp [LeoFlat.reconstructReturn, hl]
  · intro hne
    cases e with
    | identifier name => exact (hne name rfl).elim
    | _ => simp [LeoFlat.reconstructReturn]

/-- Witness for C5: a return of a tuple-aliased identifier under one
stacked condition pushes the guarded underlying tuple and erases to the
dummy sentinel. -/
theorem claim_c5_witness :
    LeoFlat.reconstructReturn
        ⟨[.identifier "c"], [], [], [("t", [.literal 1, .literal 2])], 0⟩
        (.identifier "t")
      = (⟨[.identifier "c"],
          [(some (.identifier "c"), .tuple [.literal 1, .literal 2])],
          [], [("t", [.literal 1, .literal 2])], 0⟩,
         .dummy, []) := by
  have h := (claim_c5_return_flattening
      ⟨[.identifier "c"], [], [], [("t", [.literal 1, .literal 2])], 0⟩
      (.identifier "t")).2.2.1 "t" [.literal 1, .literal 2] rfl rfl
  exact h.trans (by rfl)

/-- C7 counterexample: an integer literal with no suffix is rejected at
parse time with `implicit_values_not_allowed`; it does not parse as an
untyped literal deferred to the type checker. -/
theorem claim_c7_counterexample :
    LeoParse.parsePrimaryExpression [⟨.int "5", ⟨0, 1⟩⟩]
      = Except.error (.implicitValuesNotAllowed "5" ⟨0, 1⟩) := by
  decide

/-- Bind on an `Except` error propagates the error. -/
theorem except_error_bind {e : Type} {a b : Type} (err : e) (f : a -> Except e b) :
    (Except.error err >>= f) = Except.error err := rfl

/-- Bind on an `Except` success applies the continuation. -/
theorem except_ok_bind {e : Type} {a b : Type} (x : a) (f : a -> Except e b) :
    (Except.ok x >>= f) = f x := rfl

/-- C7 amended: an integer literal token parses as a typed literal exactly
when it is immediately followed, with no whitespace between the spans, by
one of the thirteen literal-type suffixes; a literal whose next token is
not a suffix (or with no next token at all) is rejected at parse time with
`implicit_values_not_allowed`, and a suffix separated by whitespace is
rejected with `unexpected_whitespace`. -/
theorem claim_c7_literal_suffix :
    ∀ (value : String) (sp : LeoParse.PSpan) (next : LeoParse.SpannedToken)
      (rest : List LeoParse.SpannedToken),
      (∀ it : LeoTC.IntegerType, LeoParse.tokenToIntType next.token = some it →
        sp.hi = next.span.lo →
        LeoParse.parsePrimaryExpression (⟨.int value, sp⟩ :: next :: rest)
          = Except.ok (.integer it value (sp.add next.span), rest))
      ∧ (next.token = .fieldTok → sp.hi = next.span.lo →
        LeoParse.parsePrimaryExpression (⟨.int value, sp⟩ :: next :: rest)
          = Except.ok (.fieldVal value (sp.add next.span), rest))
      ∧ (next.token = .groupTok → sp.hi = next.span.lo →
        LeoParse.parsePrimaryExpression (⟨.int value, sp⟩ :: next :: rest)
          = Except.ok (.groupSingle value (sp.add next.span), rest))
      ∧ (next.token = .scalarTok → sp.hi = next.span.lo →
        LeoParse.parsePrimaryExpression (⟨.int value, sp⟩ :: next :: rest)
          = Except.ok (.scalarVal value (sp.add next.span), rest))
      ∧ (next.token ∈ LeoParse.INT_TYPE_TOKENS → sp.hi ≠ next.span.lo →
        LeoParse.parsePrimaryExpression (⟨.int value, sp⟩ :: next :: rest)
          = Except.error (.unexpectedWhitespace value
              (LeoParse.suffixName next.token) ⟨sp.hi, next.span.lo⟩))
      ∧ (next.token ∉ LeoParse.INT_TYPE_TOKENS →
        LeoParse.parsePrimaryExpression (⟨.int value, sp⟩ :: next :: rest)
          = Except.error (.implicitValuesNotAllowed value sp))
      ∧ LeoParse.parsePrimaryExpression [⟨.int value, sp⟩]
          = Except.error (.implicitValuesNotAllowed value sp) := by
  intro value sp next rest
  obtain ⟨tk, nsp⟩ := next
  refine ⟨?_, ?_, ?_, ?_, ?_, ?_, ?_⟩
  · intro it hit hw
    cases tk <;> simp_all [LeoParse.parsePrimaryExpression, LeoParse.tokenToIntType,
      LeoParse.assertNoWhitespace, LeoParse.INT_TYPE_TOKENS, except_error_bind, except_ok_bind]
  · intro htk hw
    subst htk
    simp_all [LeoParse.parsePrimaryExpression, LeoParse.assertNoWhitespace,
      LeoParse.INT_TYPE_TOKENS, except_error_bind, except_ok_bind]
  · intro htk hw
    subst htk
    simp_all [LeoParse.parsePrimaryExpression, LeoParse.assertNoWhitespace,
      LeoParse.INT_TYPE_TOKENS, except_error_bind, except_ok_bind]
  · intro htk hw
    subst htk
    simp_all [LeoParse.parsePrimaryExpression, LeoParse.assertNoWhitespace,
      LeoParse.INT_TYPE_TOKENS, except_error_bind, except_ok_bind]
  · intro hmem hw
    cases tk <;> simp_all [LeoParse.parsePrimaryExpression, LeoParse.suffixName,
      LeoParse.assertNoWhitespace, LeoParse.INT_TYPE_TOKENS, except_error_bind, except_ok_bind]
  · intro hmem
    cases tk <;> simp_all [LeoParse.parsePrimaryExpression, LeoParse.INT_TYPE_TOKENS]
  · simp [LeoParse.parsePrimaryExpression]

/-- Witness for C7 at `7u32` with abutting spans. -/
theorem claim_c7_witness :
    LeoParse.parsePrimaryExpression [⟨.int "7", ⟨0, 1⟩⟩, ⟨.u32, ⟨1, 4⟩⟩]
      = Except.ok (.integer .u32 "7" ⟨0, 4⟩, []) := by
  have h := (claim_c7_literal_suffix "7" ⟨0, 1⟩ ⟨.u32, ⟨1, 4⟩⟩ []).1 .u32 rfl rfl
  exact h.trans (by rfl)
